import Mathlib

/-!
Shallow embedding of the b2db repository (Python) in Lean 4.

The embedding models, from the source under src/b2db:
  model.py   : class Model (record with raw attribute map and dirty flag)
  table.py   : normalize_key, Table (path construction, create/get/delete/list)
  db.py      : B2Database storage gateway (write/read/delete/list over a bucket)
  field_types.py : NativeField, DatetimeField, FileField

Python runtime values are modelled by the inductive PyValue; the cloud
bucket is modelled as an association list from object names to the decoded
JSON documents stored there (the JSON/UTF-8 encode and decode steps of the
gateway are inverse bijections on the documents we store, so the store holds
decoded documents directly).  Exceptions are modelled by PyErr results.
-/

namespace B2db

/-- Model of the Python datetime.datetime value (naive, no timezone). -/
structure PyDatetime where
  year : Nat
  month : Nat
  day : Nat
  hour : Nat
  minute : Nat
  second : Nat
  microsecond : Nat
deriving DecidableEq, Repr

/-- Python runtime values as far as this library inspects them.  The float
payload is opaque (no float arithmetic is performed anywhere in the library);
obj stands for an instance of any other class, tagged by its class name. -/
inductive PyValue where
  | none
  | bool (b : Bool)
  | int (n : Int)
  | float (id : Nat)
  | str (s : String)
  | list (xs : List PyValue)
  | dict (xs : List (String × PyValue))
  | datetime (d : PyDatetime)
  | obj (className : String)
deriving Repr

/-- Python classes (results of value.__class__) the library compares against. -/
inductive PyClass where
  | noneType
  | bool
  | int
  | float
  | str
  | list
  | dict
  | datetime
  | obj (className : String)
deriving DecidableEq, Repr

/-- The runtime class of a value: value.__class__ in Python. -/
def PyValue.pyClass : PyValue → PyClass
  | .none => .noneType
  | .bool _ => .bool
  | .int _ => .int
  | .float _ => .float
  | .str _ => .str
  | .list _ => .list
  | .dict _ => .dict
  | .datetime _ => .datetime
  | .obj c => .obj c

/-- Python identity test for a class object against the None singleton, as in
the source line if value.__class__ is None.  A class object is never the None
object, so the test is false for every class, including NoneType. -/
def PyClass.isNoneObject : PyClass → Bool := fun _ => false

/-- Python exceptions raised by the modelled code paths. -/
inductive PyErr where
  | typeError (msg : String)
  | valueError (msg : String)
  | keyError (msg : String)
  | attributeError (msg : String)
  | exception (msg : String)
deriving DecidableEq, Repr

/-- A Python dict with string keys, as an association list (first match wins;
the operations below keep keys unique, as Python dicts do). -/
abbrev PyDict := List (String × PyValue)

/-- Python dict lookup d[k], as an Option. -/
def dictLookup : PyDict → String → Option PyValue
  | [], _ => Option.none
  | (k, v) :: rest, key => if k = key then some v else dictLookup rest key

/-- Python membership test k in d. -/
def dictContains (d : PyDict) (key : String) : Bool :=
  (dictLookup d key).isSome

/-- Python dict store d[k] = v : replaces the value at an existing key,
otherwise appends the binding. -/
def dictInsert : PyDict → String → PyValue → PyDict
  | [], key, v => [(key, v)]
  | (k, w) :: rest, key, v =>
      if k = key then (k, v) :: rest else (k, w) :: dictInsert rest key v

/-- Python dict deletion del d[k]. -/
def dictErase : PyDict → String → PyDict
  | [], _ => []
  | (k, w) :: rest, key =>
      if k = key then rest else (k, w) :: dictErase rest key

/-- model.py class Model: a record with its key, raw attribute map
self.__data, and dirty flag self.__changed.  The back reference to the owning
Table is passed explicitly to the operations that need it. -/
structure Model where
  key : String
  data : PyDict
  changed : Bool
deriving Repr

/-- model.py Model.__init__(table, key, saved_data=None): the raw map is
saved_data or dict() and the dirty flag starts false. -/
def Model.init (key : String) (saved_data : Option PyDict) : Model :=
  { key := key, data := saved_data.getD [], changed := false }

/-- The class tuple (str, int, float, list, dict) tested by __setitem__. -/
def jsonClasses : List PyClass :=
  [PyClass.str, PyClass.int, PyClass.float, PyClass.list, PyClass.dict]

/-- model.py Model.__getitem__(key): returns self.__data[key], and on
KeyError returns None. -/
def Model.getitem (m : Model) (k : String) : PyValue :=
  match dictLookup m.data k with
  | some v => v
  | Option.none => PyValue.none

/-- model.py Model.__setitem__(key, value).  The source tests
value.__class__ is None (never true, see PyClass.isNoneObject) and in that
branch deletes the key when present, then falls through to the unconditional
store; the elif branch raises when the class is not in the JSON tuple, and
constructing that ValueError itself raises TypeError because the percent
format string has three conversions but only two arguments.  The result pairs
the record state visible to the caller afterwards with the exception, if one
was raised. -/
def Model.setitem (m : Model) (k : String) (v : PyValue) : Model × Option PyErr :=
  if (PyValue.pyClass v).isNoneObject then
    let d := if dictContains m.data k then dictErase m.data k else m.data
    ({ m with data := dictInsert d k v, changed := true }, Option.none)
  else if PyValue.pyClass v ∈ jsonClasses then
    ({ m with data := dictInsert m.data k v, changed := true }, Option.none)
  else
    (m, some (PyErr.typeError "not enough arguments for format string"))

/-- Python str.replace with single character pattern and single character
replacement, as used by key.replace(backslash, slash) in table.py. -/
def pyReplaceChar (a b : Char) (s : String) : String :=
  ⟨s.data.map (fun c => if c = a then b else c)⟩

/-- Drop the trailing run of characters satisfying p. -/
def dropTrailing (p : Char → Bool) (cs : List Char) : List Char :=
  (cs.reverse.dropWhile p).reverse

/-- Python str.strip with a single character argument: removes every leading
and trailing occurrence of that character. -/
def pyStripChar (a : Char) (s : String) : String :=
  ⟨dropTrailing (fun c => c == a) (s.data.dropWhile (fun c => c == a))⟩

/-- Expansion step of str.replace(slash, double underscore): every slash
becomes two underscores, every other character is kept. -/
def expandSlashes : List Char → List Char
  | [] => []
  | c :: cs => (if c = '/' then ['_', '_'] else [c]) ++ expandSlashes cs

/-- Python str.replace of slash by a double underscore. -/
def pyReplaceSlashUnderscores (s : String) : String :=
  ⟨expandSlashes s.data⟩

/-- table.py normalize_key(key):
key.replace(backslash, slash).strip(slash).replace(slash, double underscore). -/
def normalize_key (key : String) : String :=
  pyReplaceSlashUnderscores (pyStripChar '/' (pyReplaceChar '\\' '/' key))

/-- table.py Table._record_prefix(key): slash join of the table prefix and
the normalized key. -/
def recordRoot (tableRoot key : String) : String :=
  tableRoot ++ "/" ++ normalize_key key

/-- table.py Table._record_data_path(key): slash join of the record folder
and the fixed document name. -/
def record_data_path (tableRoot key : String) : String :=
  recordRoot tableRoot key ++ "/" ++ "record-data.json"

/-- Number of slash characters in a string (path segment separators). -/
def countSlash (s : String) : Nat :=
  s.data.count '/'

theorem slash_not_mem_expandSlashes (cs : List Char) : '/' ∉ expandSlashes cs := by
  induction cs with
  | nil => simp [expandSlashes]
  | cons c cs ih =>
    by_cases hc : c = '/'
    · simp [expandSlashes, hc, ih]
    · simp [expandSlashes, hc, ih, Ne.symm hc]

theorem countSlash_append (a b : String) :
    countSlash (a ++ b) = countSlash a + countSlash b := by
  simp [countSlash, String.data_append, List.count_append]

theorem countSlash_normalize_key (key : String) : countSlash (normalize_key key) = 0 := by
  simpa [countSlash, normalize_key, pyReplaceSlashUnderscores] using
    List.count_eq_zero.mpr (slash_not_mem_expandSlashes _)

/-- model.py Model.save outcome: the record state seen by the caller after
the call, the payload handed to Table.write_record_data if a write was
attempted, and the exception propagated if one was raised. -/
structure SaveResult where
  record : Model
  written : Option PyDict
  raised : Option PyErr
deriving Repr

/-- model.py Model.save(force=False): if self.__changed or force, write the
full raw map through the owning table and then clear the dirty flag.  The
writeOk argument models whether the underlying upload succeeds; when it
raises, the record is left exactly as it was (the flag clearing line is
never reached). -/
def Model.save (writeOk : Bool) (m : Model) (force : Bool) : SaveResult :=
  if m.changed || force then
    if writeOk then
      ⟨{ m with changed := false }, some m.data, Option.none⟩
    else
      ⟨m, some m.data, some (PyErr.exception "upload failed")⟩
  else
    ⟨m, Option.none, Option.none⟩

/-- Claim C1, counterexample: raw attribute set does NOT succeed for a value
of runtime class bool.  The class tuple in __setitem__ is
(str, int, float, list, dict); bool is not a member (class equality in Python
is identity, and bool is not int), so setting a boolean raises, leaving the
raw map and the dirty flag unchanged, contrary to the claim that booleans
are accepted. -/
theorem setitem_rejects_bool :
    Model.setitem ⟨"k", [("x", PyValue.int 1)], false⟩ "flag" (PyValue.bool true)
      = (⟨"k", [("x", PyValue.int 1)], false⟩,
         some (PyErr.typeError "not enough arguments for format string")) := by
  rfl

/-- Claim C1, amended: raw attribute set succeeds exactly for values whose
runtime class is one of str, int, float, list, dict, storing the value and
marking the record dirty; for every other runtime class, booleans and None
included, it raises (the raise surfaces as a TypeError because the message
formatting of the intended ValueError itself fails), and on that failure the
raw attribute map and the dirty flag are unchanged. -/
theorem setitem_classes_amended (m : Model) (k : String) (v : PyValue) :
    (PyValue.pyClass v ∈ jsonClasses →
       Model.setitem m k v
         = ({ m with data := dictInsert m.data k v, changed := true }, Option.none))
    ∧ (PyValue.pyClass v ∉ jsonClasses →
       Model.setitem m k v
         = (m, some (PyErr.typeError "not enough arguments for format string")))
    ∧ PyClass.bool ∉ jsonClasses ∧ PyClass.noneType ∉ jsonClasses := by
  refine ⟨fun h => ?_, fun h => ?_, by decide, by decide⟩
  · simp [Model.setitem, PyClass.isNoneObject, h]
  · simp [Model.setitem, PyClass.isNoneObject, h]

/-- Witness for setitem_classes_amended at concrete inputs: a string value is
stored and marks the record dirty; an instance of a custom class is rejected
with the map and flag unchanged. -/
theorem setitem_classes_amended_witness :
    (Model.setitem ⟨"k", [], false⟩ "a" (PyValue.str "hi")
       = (⟨"k", [("a", PyValue.str "hi")], true⟩, Option.none))
    ∧ (Model.setitem ⟨"k", [], false⟩ "a" (PyValue.obj "Widget")
       = (⟨"k", [], false⟩,
          some (PyErr.typeError "not enough arguments for format string"))) :=
  ⟨(setitem_classes_amended ⟨"k", [], false⟩ "a" (PyValue.str "hi")).1 (by decide),
   (setitem_classes_amended ⟨"k", [], false⟩ "a" (PyValue.obj "Widget")).2.1 (by decide)⟩

/-- Claim C2, evaluation at the failing input: raw setting an existing
attribute to None does not remove the key; it raises and leaves the record
unchanged.  The source tests value.__class__ is None, which is false for
every value since a class object is never the None singleton, so the call
falls into the unsupported type branch and raises; the key stays in the map
and the dirty flag keeps its old value. -/
theorem setitem_none_raises :
    Model.setitem ⟨"k", [("a", PyValue.int 1)], false⟩ "a" PyValue.none
      = (⟨"k", [("a", PyValue.int 1)], false⟩,
         some (PyErr.typeError "not enough arguments for format string")) := by
  rfl

/-- Claim C10: raw attribute read is total.  Reading an attribute absent from
the raw map returns None instead of raising, and reading a present attribute
returns its stored raw value. -/
theorem getitem_total (m : Model) (k : String) :
    (dictLookup m.data k = Option.none → Model.getitem m k = PyValue.none)
    ∧ ∀ v, dictLookup m.data k = some v → Model.getitem m k = v := by
  constructor
  · intro h; simp [Model.getitem, h]
  · intro v h; simp [Model.getitem, h]

/-- Witness for getitem_total: a missing attribute reads as None and a
present attribute reads as its stored value on a concrete record. -/
theorem getitem_total_witness :
    Model.getitem ⟨"k", [("a", PyValue.int 7)], false⟩ "missing" = PyValue.none
    ∧ Model.getitem ⟨"k", [("a", PyValue.int 7)], false⟩ "a" = PyValue.int 7 :=
  ⟨(getitem_total ⟨"k", [("a", PyValue.int 7)], false⟩ "missing").1 rfl,
   (getitem_total ⟨"k", [("a", PyValue.int 7)], false⟩ "a").2 (PyValue.int 7) rfl⟩

/-- The character of a decimal digit. -/
def digitChar (d : Nat) : Char :=
  Char.ofNat (48 + d)

/-- Decimal digits of a positive number, most significant first; the first
argument is recursion fuel, always called with fuel at least the value. -/
def decCharsAux : Nat → Nat → List Char
  | 0, _ => []
  | _ + 1, 0 => []
  | fuel + 1, n + 1 => decCharsAux fuel ((n + 1) / 10) ++ [digitChar ((n + 1) % 10)]

/-- Decimal rendering of a natural number, as Python renders an int. -/
def decChars (n : Nat) : List Char :=
  if n = 0 then ['0'] else decCharsAux n n

/-- Zero padding on the left to the given width, as the strftime numeric
directives pad their fields. -/
def padZeros (w : Nat) (ds : List Char) : List Char :=
  List.replicate (w - ds.length) '0' ++ ds

/-- A two digit zero padded field of strftime. -/
def twoDigits (n : Nat) : List Char :=
  padZeros 2 (decChars n)

/-- The four digit zero padded year field of strftime. -/
def fourDigits (n : Nat) : List Char :=
  padZeros 4 (decChars n)

/-- field_types.py DatetimeField.STORE_DATETIME_FORMAT rendered by
datetime.strftime: year dash month dash day space hour colon minute colon
second, each zero padded; the microsecond component is never rendered. -/
def formatDtChars (d : PyDatetime) : List Char :=
  fourDigits d.year ++ '-' :: twoDigits d.month ++ '-' :: twoDigits d.day
    ++ ' ' :: twoDigits d.hour ++ ':' :: twoDigits d.minute ++ ':' :: twoDigits d.second

/-- String form of the strftime rendering above. -/
def formatDt (d : PyDatetime) : String :=
  ⟨formatDtChars d⟩

/-- field_types.py field type helpers attached to Model subclasses:
NativeField (with its aliases CharField and IntField), DatetimeField and
FileField. -/
inductive FieldType where
  | native
  | datetime
  | file
deriving DecidableEq, Repr

/-- field_types.py is_settable: true except for FileField. -/
def FieldType.is_settable : FieldType → Bool
  | .file => false
  | _ => true

/-- field_types.py format(record, attr_name, value) of each field type:
NativeField and FileField return the value unchanged (FileField inherits the
native format and is never reached through attribute assignment);
DatetimeField renders a datetime through strftime, returns None for None,
and raises AttributeError when the value has no strftime method. -/
def FieldType.format : FieldType → PyValue → Except PyErr PyValue
  | .native, v => .ok v
  | .datetime, PyValue.none => .ok PyValue.none
  | .datetime, PyValue.datetime d => .ok (PyValue.str (formatDt d))
  | .datetime, _ => .error (PyErr.attributeError "object has no attribute strftime")
  | .file, v => .ok v

/-- Python str.startswith, computed on the character lists. -/
def strStarts (pre s : String) : Bool :=
  pre.data.isPrefixOf s.data

/-- Python str.lower on the character list; the attribute names the library
compares are ASCII, where this matches Python. -/
def pyLower (s : String) : String :=
  ⟨s.data.map Char.toLower⟩

/-- model.py Model.__setattr__(name, value): a name starting with an
underscore or containing an upper case character, or one that is not a
declared field type class attribute, is a plain Python attribute set that
touches neither the raw map nor the dirty flag; a declared field type
attribute must be settable, and the formatted value is stored through
__setitem__.  The fields environment models the class attributes of the
Model subclass holding field type objects. -/
def Model.setattr (fields : String → Option FieldType) (m : Model)
    (name : String) (v : PyValue) : Model × Option PyErr :=
  if strStarts "_" name || pyLower name != name then (m, Option.none)
  else
    match fields name with
    | Option.none => (m, Option.none)
    | some ft =>
      if ft.is_settable then
        match ft.format v with
        | .ok fv => Model.setitem m name fv
        | .error e => (m, some e)
      else (m, some (PyErr.attributeError "read only field type"))

/-- The loop of table.py Table.create applying each initial attribute through
Model.__setattr__; a raise stops the loop and propagates. -/
def createLoop (fields : String → Option FieldType) :
    Model → List (String × PyValue) → Model × Option PyErr
  | m, [] => (m, Option.none)
  | m, (n, v) :: rest =>
    match Model.setattr fields m n v with
    | (m1, Option.none) => createLoop fields m1 rest
    | (m1, some e) => (m1, some e)

/-- table.py Table.create(key, **init_values): a fresh record built by
Model.__init__ (dirty flag false), to which every initial attribute is
applied through Model.__setattr__. -/
def Table.create (fields : String → Option FieldType) (key : String)
    (init_values : List (String × PyValue)) : Model × Option PyErr :=
  createLoop fields (Model.init key Option.none) init_values

/-- The visible objects of the bucket: object name to the decoded JSON
document stored at that name.  The gateway writes json.dumps of a document
and reads json.loads of the downloaded bytes; those steps are mutually
inverse on the documents this library writes, so the store is modelled as
holding decoded maps directly. -/
abbrev Store := List (String × PyDict)

/-- Lookup of an object by its full name. -/
def storeLookup : Store → String → Option PyDict
  | [], _ => Option.none
  | (k, v) :: rest, key => if k = key then some v else storeLookup rest key

/-- db.py applying self.__prefix to a path: prepended with a slash when the
prefix is set and non-empty (Python truthiness of the stored value). -/
def applyDbPre (dbPre : Option String) (path : String) : String :=
  match dbPre with
  | some p => if p = "" then path else p ++ "/" ++ path
  | Option.none => path

/-- db.py B2Database.read_record_data(path): apply the prefix, download the
object by name, and decode it; a missing object surfaces as KeyError. -/
def read_record_data (dbPre : Option String) (store : Store) (path : String) :
    Except PyErr PyDict :=
  match storeLookup store (applyDbPre dbPre path) with
  | some d => .ok d
  | Option.none =>
      .error (PyErr.keyError ("No record saved at " ++ applyDbPre dbPre path))

/-- table.py Table.get(key): read the record document at the record data
path and build a record from it through Model.__init__. -/
def Table.get (dbPre : Option String) (store : Store) (tableRoot key : String) :
    Except PyErr Model :=
  match read_record_data dbPre store (record_data_path tableRoot key) with
  | .ok d => .ok (Model.init key (some d))
  | .error e => .error e

/-- db.py B2Database.delete_record_files(path): hide every object returned
by the recursive bucket listing under the prefixed folder, then raise
KeyError when the listing was empty.  Bucket.ls of a folder yields the
objects whose names begin with the folder name followed by a slash, and
hiding removes an object from listings by name. -/
def delete_record_files (dbPre : Option String) (store : Store) (path : String) :
    Except PyErr Store :=
  let p := applyDbPre dbPre path
  let hidden := store.filter (fun f => strStarts (p ++ "/") f.1)
  if hidden.length = 0 then
    .error (PyErr.keyError ("No files to delete at " ++ p))
  else
    .ok (store.filter (fun f => !(strStarts (p ++ "/") f.1)))

/-- table.py Table.delete(key): delete every object under the record
folder. -/
def Table.delete (dbPre : Option String) (store : Store) (tableRoot key : String) :
    Except PyErr Store :=
  delete_record_files dbPre store (recordRoot tableRoot key)

/-- The character list of the record data document suffix recognized by
db.py RECORD_DATA_PAT. -/
def recordDataSuffix : List Char :=
  "/record-data.json".data

/-- Python regex dollar anchor behaviour: it also matches just before a
newline that ends the string. -/
def dollarStrip (cs : List Char) : List Char :=
  if cs.getLast? = some '\n' then cs.dropLast else cs

/-- db.py RECORD_DATA_PAT applied by re.match: a greedy group of characters
other than newline, a slash, and the literal document name, anchored at both
ends; on a match the group is everything before the final document suffix,
and the match fails when that stem contains a newline (the regex dot does
not match newlines). -/
def matchRecordDataChars (cs0 : List Char) : Option (List Char) :=
  let cs := dollarStrip cs0
  if recordDataSuffix.length ≤ cs.length
      ∧ cs.drop (cs.length - recordDataSuffix.length) = recordDataSuffix then
    let stem := cs.take (cs.length - recordDataSuffix.length)
    if '\n' ∈ stem then Option.none else some stem
  else Option.none

/-- The loop of db.py B2Database.list_table_keys: each listed name must
begin with the prefixed table path and a slash or the generator raises; the
relative remainder is matched against RECORD_DATA_PAT and the group yielded
on a match. -/
def listTableKeysGo (p : String) : List String → Except PyErr (List String)
  | [] => .ok []
  | f :: rest =>
    if strStarts (p ++ "/") f then
      match matchRecordDataChars (f.data.drop (p.length + 1)),
            listTableKeysGo p rest with
      | some k, .ok ks => .ok (⟨k⟩ :: ks)
      | some _, .error e => .error e
      | Option.none, r => r
    else
      .error (PyErr.exception ("Got path that does not start with " ++ p ++ "/"))

/-- db.py B2Database.list_table_keys(path): apply the prefix and scan the
recursive listing (the names argument models what Bucket.ls returns under
the prefixed path); collecting the generator propagates the first raise. -/
def list_table_keys (dbPre : Option String) (path : String) (names : List String) :
    Except PyErr (List String) :=
  listTableKeysGo (applyDbPre dbPre path) names

/-- Claim C4: the normalized key contains no slash (backslashes are turned
into slashes, leading and trailing slashes stripped, and every remaining
slash replaced by a double underscore), the record folder joins the table
prefix and the normalized key with a slash, and the record data path appends
the fixed document name, so the path has exactly two more slashes than the
table prefix: one path segment attributable to the key plus the document
name. -/
theorem record_path_segments (tableRoot key : String) :
    '/' ∉ (normalize_key key).data
    ∧ recordRoot tableRoot key = tableRoot ++ "/" ++ normalize_key key
    ∧ record_data_path tableRoot key
        = tableRoot ++ "/" ++ normalize_key key ++ "/record-data.json"
    ∧ countSlash (record_data_path tableRoot key) = countSlash tableRoot + 2 := by
  refine ⟨?_, rfl, ?_, ?_⟩
  · simpa [normalize_key, pyReplaceSlashUnderscores] using
      slash_not_mem_expandSlashes (pyStripChar '/' (pyReplaceChar '\\' '/' key)).data
  · simp [record_data_path, recordRoot, String.append_assoc]
  · have h1 : countSlash "/" = 1 := by decide
    have h2 : countSlash "record-data.json" = 0 := by decide
    simp [record_data_path, recordRoot, countSlash_append, h1, h2,
      countSlash_normalize_key]

/-- Claim C5: with a storage layer whose writes succeed, save with force
false performs an underlying write exactly when the record is dirty, the
payload is the full raw attribute map, the dirty flag is clear afterwards and
the data unchanged; a second save right after performs no write, while save
with force true always writes the full map. -/
theorem save_write_iff_dirty (m : Model) :
    ((Model.save true m false).written.isSome = m.changed)
    ∧ (m.changed = true → (Model.save true m false).written = some m.data)
    ∧ (Model.save true m false).record.changed = false
    ∧ (Model.save true m false).record.data = m.data
    ∧ (Model.save true m false).raised = Option.none
    ∧ (Model.save true (Model.save true m false).record false).written = Option.none
    ∧ (Model.save true m true).written = some m.data := by
  cases hm : m.changed <;> simp [Model.save, hm]

/-- Witness for save_write_iff_dirty on a concrete dirty record: the first
save writes the full map, the immediately repeated save writes nothing. -/
theorem save_write_iff_dirty_witness :
    (Model.save true ⟨"k", [("a", PyValue.int 1)], true⟩ false).written
      = some [("a", PyValue.int 1)]
    ∧ (Model.save true
        (Model.save true ⟨"k", [("a", PyValue.int 1)], true⟩ false).record
        false).written = Option.none :=
  ⟨(save_write_iff_dirty ⟨"k", [("a", PyValue.int 1)], true⟩).2.1 rfl,
   (save_write_iff_dirty ⟨"k", [("a", PyValue.int 1)], true⟩).2.2.2.2.2.1⟩

/-- Claim C6: when the underlying write raises, save leaves the record
exactly as it was, the dirty flag in particular; for a dirty record the
exception propagates, the attempted payload was the full raw map, and a
subsequent save against working storage re-attempts the same full document
write and only then clears the flag. -/
theorem save_failure_preserves_dirty (m : Model) (force : Bool) :
    (Model.save false m force).record = m
    ∧ (m.changed = true →
        (Model.save false m force).raised.isSome = true
        ∧ (Model.save false m force).written = some m.data
        ∧ (Model.save true m false).written = some m.data
        ∧ (Model.save true m false).record.changed = false) := by
  cases hm : m.changed <;> cases force <;> simp [Model.save, hm]

/-- Witness for save_failure_preserves_dirty on a concrete dirty record and
a failing write: the record keeps its dirty flag and the exception
surfaces. -/
theorem save_failure_preserves_dirty_witness :
    (Model.save false ⟨"k", [("a", PyValue.int 1)], true⟩ false).record
      = ⟨"k", [("a", PyValue.int 1)], true⟩
    ∧ (Model.save false ⟨"k", [("a", PyValue.int 1)], true⟩ false).raised.isSome
        = true :=
  ⟨(save_failure_preserves_dirty ⟨"k", [("a", PyValue.int 1)], true⟩ false).1,
   ((save_failure_preserves_dirty ⟨"k", [("a", PyValue.int 1)], true⟩ false).2 rfl).1⟩

/-- Claim C3, counterexample: Table.create with the empty set of initial
attributes returns a record whose dirty flag is false (Model.__init__ starts
with changed false and nothing in create sets it), so an immediately
following save performs no underlying write, contrary to the claim that
every created record is dirty. -/
theorem create_empty_clean_counterexample :
    (Table.create (fun _ => some FieldType.native) "sue" []).1.changed = false
    ∧ (Table.create (fun _ => some FieldType.native) "sue" []).2 = Option.none
    ∧ (Model.save true (Table.create (fun _ => some FieldType.native) "sue" []).1
        false).written = Option.none :=
  ⟨rfl, rfl, rfl⟩

/-- Claim C3, amended: Table.create returns a clean record when the initial
attribute set is empty; the dirty flag is set only by initial attributes
applied through the typed assignment path (here: a settable native field
receiving a JSON compatible value), after which a save writes; and every
record returned by Table.get is clean, so its immediate save performs no
write. -/
theorem create_get_dirtiness_amended (key : String) :
    (∀ fields : String → Option FieldType,
       Table.create fields key [] = (Model.init key Option.none, Option.none)
       ∧ (Model.save true (Table.create fields key []).1 false).written = Option.none)
    ∧ (∀ (fields : String → Option FieldType) (name : String) (v : PyValue),
        fields name = some FieldType.native →
        strStarts "_" name = false →
        pyLower name = name →
        PyValue.pyClass v ∈ jsonClasses →
        (Table.create fields key [(name, v)]).2 = Option.none
        ∧ (Table.create fields key [(name, v)]).1.changed = true
        ∧ (Model.save true (Table.create fields key [(name, v)]).1 false).written
            = some (Table.create fields key [(name, v)]).1.data)
    ∧ (∀ (dbPre : Option String) (store : Store) (tableRoot : String) (m : Model),
        Table.get dbPre store tableRoot key = .ok m →
        m.changed = false ∧ (Model.save true m false).written = Option.none) := by
  refine ⟨fun fields => ⟨rfl, rfl⟩, ?_, ?_⟩
  · intro fields name v hf hu hl hc
    have hsa : Model.setattr fields (Model.init key Option.none) name v
        = Model.setitem (Model.init key Option.none) name v := by
      simp [Model.setattr, hu, hl, hf, FieldType.is_settable, FieldType.format]
    have hset : Model.setitem (Model.init key Option.none) name v
        = ({ key := key, data := dictInsert [] name v, changed := true }, Option.none) := by
      simp [Model.setitem, PyClass.isNoneObject, hc, Model.init]
    have hcreate : Table.create fields key [(name, v)]
        = ({ key := key, data := dictInsert [] name v, changed := true }, Option.none) := by
      simp only [Table.create, createLoop, hsa, hset]
    refine ⟨by rw [hcreate], by rw [hcreate], ?_⟩
    rw [hcreate]
    simp [Model.save]
  · intro dbPre store tableRoot m hm
    unfold Table.get at hm
    cases hr : read_record_data dbPre store (record_data_path tableRoot key) with
    | error e => rw [hr] at hm; exact absurd hm (by simp)
    | ok d =>
      rw [hr] at hm
      have hmd : m = Model.init key (some d) := by
        injection hm with h
        exact h.symm
      subst hmd
      exact ⟨rfl, rfl⟩

/-- Witness for create_get_dirtiness_amended: a concrete create with one
native initial attribute yields a dirty record, and a concrete get yields a
clean record whose save writes nothing. -/
theorem create_get_dirtiness_amended_witness :
    (Table.create (fun _ => some FieldType.native) "sue"
        [("name", PyValue.str "Sue")]).1.changed = true
    ∧ (Model.save true (Model.init "sue" (some [("name", PyValue.str "Sue")]))
        false).written = Option.none :=
  ⟨((create_get_dirtiness_amended "sue").2.1 (fun _ => some FieldType.native)
      "name" (PyValue.str "Sue") rfl rfl rfl (by decide)).2.1,
   ((create_get_dirtiness_amended "sue").2.2 Option.none
      [("people/sue/record-data.json", [("name", PyValue.str "Sue")])] "people"
      (Model.init "sue" (some [("name", PyValue.str "Sue")])) rfl).2⟩

theorem storeLookup_eq_none (l : Store) (n : String) (h : ∀ e ∈ l, e.1 ≠ n) :
    storeLookup l n = Option.none := by
  induction l with
  | nil => rfl
  | cons e rest ih =>
    obtain ⟨k, v⟩ := e
    have hk : k ≠ n := h (k, v) (List.mem_cons_self _ _)
    simp only [storeLookup, if_neg hk]
    exact ih fun e he => h e (List.mem_cons_of_mem _ he)

theorem applyDbPre_append (dbPre : Option String) (a b : String) :
    applyDbPre dbPre (a ++ b) = applyDbPre dbPre a ++ b := by
  cases dbPre with
  | none => rfl
  | some p => by_cases hp : p = "" <;> simp [applyDbPre, hp, String.append_assoc]

theorem strStarts_self_append (a b : String) : strStarts a (a ++ b) = true := by
  have h : a.data <+: a.data ++ b.data := ⟨b.data, rfl⟩
  simp only [strStarts, String.data_append]
  exact List.isPrefixOf_iff_prefix.mpr h

theorem filter_not_filter {α : Type} (q : α → Bool) (l : List α) :
    (l.filter (fun x => !(q x))).filter q = [] := by
  induction l with
  | nil => rfl
  | cons a l ih => by_cases h : q a <;> simp [List.filter_cons, h, ih]

theorem delete_record_files_eq (dbPre : Option String) (store : Store) (path : String) :
    delete_record_files dbPre store path
      = if (store.filter (fun f => strStarts (applyDbPre dbPre path ++ "/") f.1)).length
            = 0 then
          .error (PyErr.keyError ("No files to delete at " ++ applyDbPre dbPre path))
        else
          .ok (store.filter (fun f => !(strStarts (applyDbPre dbPre path ++ "/") f.1))) :=
  rfl

/-- Claim C9: Table.delete hides every object under the record folder and
fails with a not found error exactly when no object existed there; after a
successful delete, nothing under the folder remains, a subsequent Table.get
of the key fails with a not found error, and a second Table.delete also
fails with a not found error. -/
theorem delete_empties_and_notfound (dbPre : Option String) (store : Store)
    (tableRoot key : String) :
    ((∃ msg, Table.delete dbPre store tableRoot key = .error (PyErr.keyError msg))
        ↔ store.filter (fun f =>
            strStarts (applyDbPre dbPre (recordRoot tableRoot key) ++ "/") f.1) = [])
    ∧ (∀ store2, Table.delete dbPre store tableRoot key = .ok store2 →
        (∀ f ∈ store2,
          strStarts (applyDbPre dbPre (recordRoot tableRoot key) ++ "/") f.1 = false)
        ∧ (∃ msg, Table.get dbPre store2 tableRoot key = .error (PyErr.keyError msg))
        ∧ (∃ msg, Table.delete dbPre store2 tableRoot key
            = .error (PyErr.keyError msg))) := by
  have hd : ∀ s : Store, Table.delete dbPre s tableRoot key
      = delete_record_files dbPre s (recordRoot tableRoot key) := fun _ => rfl
  constructor
  · rw [hd, delete_record_files_eq]
    by_cases h : store.filter (fun f =>
        strStarts (applyDbPre dbPre (recordRoot tableRoot key) ++ "/") f.1) = [] <;>
      simp [h, List.length_eq_zero]
  · intro store2 hok
    rw [hd, delete_record_files_eq] at hok
    by_cases h : store.filter (fun f =>
        strStarts (applyDbPre dbPre (recordRoot tableRoot key) ++ "/") f.1) = []
    · rw [if_pos (by simp [h])] at hok
      exact absurd hok (by simp)
    · rw [if_neg (by simp [List.length_eq_zero, h])] at hok
      have hst : store2 = store.filter (fun f =>
          !(strStarts (applyDbPre dbPre (recordRoot tableRoot key) ++ "/") f.1)) := by
        injection hok with h2
        exact h2.symm
      subst hst
      have hN : applyDbPre dbPre (record_data_path tableRoot key)
          = (applyDbPre dbPre (recordRoot tableRoot key) ++ "/") ++ "record-data.json" := by
        simp only [record_data_path, applyDbPre_append]
      have hNs : strStarts (applyDbPre dbPre (recordRoot tableRoot key) ++ "/")
          (applyDbPre dbPre (record_data_path tableRoot key)) = true := by
        rw [hN]
        exact strStarts_self_append _ _
      have hlook : storeLookup (store.filter (fun f =>
            !(strStarts (applyDbPre dbPre (recordRoot tableRoot key) ++ "/") f.1)))
          (applyDbPre dbPre (record_data_path tableRoot key)) = Option.none := by
        apply storeLookup_eq_none
        intro e he hEq
        have h1 := (List.mem_filter.mp he).2
        rw [Bool.not_eq_true'] at h1
        rw [hEq, hNs] at h1
        exact Bool.true_eq_false ▸ h1 ▸ rfl
      refine ⟨?_, ?_, ?_⟩
      · intro f hf
        have h1 := (List.mem_filter.mp hf).2
        simpa using h1
      · refine ⟨"No record saved at " ++ applyDbPre dbPre (record_data_path tableRoot key), ?_⟩
        simp only [Table.get, read_record_data, hlook]
      · rw [hd, delete_record_files_eq]
        rw [if_pos (by simp [filter_not_filter (fun f =>
          strStarts (applyDbPre dbPre (recordRoot tableRoot key) ++ "/") f.1) store])]
        exact ⟨_, rfl⟩

/-- Witness for delete_empties_and_notfound: deleting the record sue from a
concrete store holding its document and one attachment empties the folder,
and both the following get and a second delete fail with a not found
error. -/
theorem delete_empties_and_notfound_witness :
    (∀ f ∈ ([] : Store), strStarts "people/sue/" f.1 = false)
    ∧ (∃ msg, Table.get Option.none [] "people" "sue" = .error (PyErr.keyError msg))
    ∧ (∃ msg, Table.delete Option.none [] "people" "sue"
        = .error (PyErr.keyError msg)) :=
  (delete_empties_and_notfound Option.none
      [("people/sue/record-data.json", [("name", PyValue.str "Sue")]),
       ("people/sue/files/pic.jpg", [])] "people" "sue").2 [] rfl

theorem matchRecordData_stem (A : List Char) (hA : '\n' ∉ A) :
    matchRecordDataChars (A ++ recordDataSuffix) = some A := by
  have hlen : (A ++ recordDataSuffix).length - recordDataSuffix.length = A.length := by
    simp [List.length_append]
  have h2 : (A ++ recordDataSuffix).getLast? = some 'n' := by
    rw [List.getLast?_append_of_ne_nil A (by decide)]
    rfl
  have hstrip : dollarStrip (A ++ recordDataSuffix) = A ++ recordDataSuffix := by
    have h3 : ¬((A ++ recordDataSuffix).getLast? = some '\n') := by
      rw [h2]
      decide
    unfold dollarStrip
    rw [if_neg h3]
  have hdrop : (A ++ recordDataSuffix).drop
      ((A ++ recordDataSuffix).length - recordDataSuffix.length) = recordDataSuffix := by
    rw [hlen]
    exact List.drop_left A recordDataSuffix
  have htake : (A ++ recordDataSuffix).take
      ((A ++ recordDataSuffix).length - recordDataSuffix.length) = A := by
    rw [hlen]
    exact List.take_left A recordDataSuffix
  simp only [matchRecordDataChars, hstrip]
  rw [if_pos ⟨by simp [List.length_append], hdrop⟩, htake, if_neg hA]

theorem listTableKeysGo_all (p : String) (names : List String)
    (h : ∀ f ∈ names, strStarts (p ++ "/") f = true) :
    listTableKeysGo p names
      = .ok (names.filterMap (fun f =>
          (matchRecordDataChars (f.data.drop (p.length + 1))).map
            (fun k => (⟨k⟩ : String)))) := by
  induction names with
  | nil => rfl
  | cons f rest ih =>
    have hf := h f (List.mem_cons_self _ _)
    have hrest := ih fun g hg => h g (List.mem_cons_of_mem _ hg)
    simp only [listTableKeysGo, hf, if_true, hrest, List.filterMap_cons]
    cases hm : matchRecordDataChars (f.data.drop (p.length + 1)) with
    | none => simp
    | some k => simp

/-- Claim C8: under the prefixed table path, the listing yields, for every
object name returned by the recursive listing, exactly the table relative
stem before the record data document suffix when the relative path matches
the pattern, and nothing for non matching names; the pattern maps a stem
followed by the document suffix back to that stem; and concretely, after
creating records with keys a and b slash c, listing the table yields the
keys a and b double underscore c. -/
theorem list_table_keys_spec (dbPre : Option String) (path : String)
    (names : List String) :
    ((∀ f ∈ names, strStarts (applyDbPre dbPre path ++ "/") f = true) →
       list_table_keys dbPre path names
         = .ok (names.filterMap (fun f =>
             (matchRecordDataChars
                 (f.data.drop ((applyDbPre dbPre path).length + 1))).map
               (fun k => (⟨k⟩ : String)))))
    ∧ (∀ stem : String, '\n' ∉ stem.data →
        matchRecordDataChars (stem ++ "/record-data.json").data = some stem.data)
    ∧ list_table_keys Option.none "people"
        [record_data_path "people" "a", record_data_path "people" "b/c"]
      = .ok ["a", "b__c"] := by
  refine ⟨fun h => listTableKeysGo_all _ names h, fun stem hs => ?_, ?_⟩
  · have hdata : (stem ++ "/record-data.json").data = stem.data ++ recordDataSuffix := by
      simp [String.data_append, recordDataSuffix]
    rw [hdata]
    exact matchRecordData_stem stem.data hs
  · rfl

/-- Witness for list_table_keys_spec: the concrete listing of the people
table with the documents of keys a and b slash c yields the keys a and b
double underscore c, and the pattern extracts the stem from a concrete
relative path. -/
theorem list_table_keys_spec_witness :
    list_table_keys Option.none "people"
        ["people/a/record-data.json", "people/b__c/record-data.json"]
      = .ok ["a", "b__c"]
    ∧ matchRecordDataChars ("b__c/record-data.json").data = some "b__c".data :=
  ⟨(list_table_keys_spec Option.none "people"
      ["people/a/record-data.json", "people/b__c/record-data.json"]).1 (by decide),
   (list_table_keys_spec Option.none "people" []).2.1 "b__c" (by decide)⟩

/-- Python leap year rule of the proleptic Gregorian calendar
(calendar.isleap, used by datetime). -/
def isLeapYear (y : Nat) : Bool :=
  (y % 4 == 0) && (y % 100 != 0 || y % 400 == 0)

/-- Days in a month as the datetime constructor validates them. -/
def daysInMonth (y m : Nat) : Nat :=
  if m = 2 then (if isLeapYear y then 29 else 28)
  else if m = 4 ∨ m = 6 ∨ m = 9 ∨ m = 11 then 30
  else 31

/-- The invariants the datetime.datetime constructor enforces on its fields;
every datetime value in a running Python program satisfies them. -/
def PyDatetime.Valid (d : PyDatetime) : Prop :=
  1 ≤ d.year ∧ d.year ≤ 9999 ∧ 1 ≤ d.month ∧ d.month ≤ 12
    ∧ 1 ≤ d.day ∧ d.day ≤ daysInMonth d.year d.month
    ∧ d.hour ≤ 23 ∧ d.minute ≤ 59 ∧ d.second ≤ 59 ∧ d.microsecond ≤ 999999

instance (d : PyDatetime) : Decidable d.Valid := by
  unfold PyDatetime.Valid
  infer_instance

/-- Numeric value of a run of decimal digit characters, most significant
first: the int conversion strptime applies to a matched field. -/
def readNat (cs : List Char) : Nat :=
  cs.foldl (fun a c => a * 10 + (c.toNat - 48)) 0

/-- Split at the first occurrence of a separator character: the strptime
step matching a field up to the next literal separator of the pattern. -/
def takeField (sep : Char) (cs : List Char) : Option (List Char × List Char) :=
  match cs.dropWhile (fun c => c != sep) with
  | [] => Option.none
  | _ :: rest => some (cs.takeWhile (fun c => c != sep), rest)

/-- datetime.strptime with the fixed DatetimeField pattern: CPython
implements strptime by a regular expression built from the directives (four
digits for the year, one or two digits for every other field) joined by the
literal separators, converts each matched field with int, and validates the
ranges through the datetime constructor.  None models the ValueError raised
on a failed match or failed validation. -/
def parseDtChars (cs : List Char) : Option PyDatetime := do
  let (ys, r1) ← takeField '-' cs
  let (ms, r2) ← takeField '-' r1
  let (ds, r3) ← takeField ' ' r2
  let (hs, r4) ← takeField ':' r3
  let (mins, ss) ← takeField ':' r4
  if (ys.all Char.isDigit = true ∧ ys.length = 4)
      ∧ (ms.all Char.isDigit = true ∧ 1 ≤ ms.length ∧ ms.length ≤ 2)
      ∧ (ds.all Char.isDigit = true ∧ 1 ≤ ds.length ∧ ds.length ≤ 2)
      ∧ (hs.all Char.isDigit = true ∧ 1 ≤ hs.length ∧ hs.length ≤ 2)
      ∧ (mins.all Char.isDigit = true ∧ 1 ≤ mins.length ∧ mins.length ≤ 2)
      ∧ (ss.all Char.isDigit = true ∧ 1 ≤ ss.length ∧ ss.length ≤ 2) then
    let d : PyDatetime :=
      ⟨readNat ys, readNat ms, readNat ds, readNat hs, readNat mins, readNat ss, 0⟩
    if d.Valid then some d else Option.none
  else Option.none

/-- field_types.py DatetimeField.format(record, attr_name, value): strftime
rendering for a datetime value; for None the body is skipped and the Python
function returns None. -/
def DatetimeField.format : Option PyDatetime → Option String
  | some v => some (formatDt v)
  | Option.none => Option.none

/-- field_types.py DatetimeField.parse(record, attr_name, value): for a
truthy value, datetime.strptime with the stored pattern, raising ValueError
on a mismatch; for None or the empty string the body is skipped and the
Python function returns None. -/
def DatetimeField.parse : Option String → Except PyErr (Option PyDatetime)
  | Option.none => .ok Option.none
  | some s =>
    if s = "" then .ok Option.none
    else
      match parseDtChars s.data with
      | some d => .ok (some d)
      | Option.none => .error (PyErr.valueError "time data does not match format")

theorem digitChar_toNat (d : Nat) (h : d < 10) : (digitChar d).toNat = 48 + d := by
  interval_cases d <;> decide

theorem digitChar_isDigit (d : Nat) (h : d < 10) : (digitChar d).isDigit = true := by
  interval_cases d <;> decide

theorem decCharsAux_digits (fuel : Nat) :
    ∀ n, ∀ c ∈ decCharsAux fuel n, ∃ d, d < 10 ∧ c = digitChar d := by
  induction fuel with
  | zero =>
    intro n c hc
    simp [decCharsAux] at hc
  | succ fuel ih =>
    intro n c hc
    cases n with
    | zero => simp [decCharsAux] at hc
    | succ m =>
      rw [decCharsAux] at hc
      rcases List.mem_append.mp hc with h | h
      · exact ih _ c h
      · rw [List.mem_singleton] at h
        exact ⟨(m + 1) % 10, Nat.mod_lt _ (by norm_num), h⟩

theorem decChars_digits (n : Nat) :
    ∀ c ∈ decChars n, ∃ d, d < 10 ∧ c = digitChar d := by
  intro c hc
  unfold decChars at hc
  by_cases h0 : n = 0
  · rw [if_pos h0, List.mem_singleton] at hc
    exact ⟨0, by norm_num, by rw [hc]; decide⟩
  · rw [if_neg h0] at hc
    exact decCharsAux_digits n n c hc

theorem pad_digitRep (w n : Nat) :
    ∀ c ∈ padZeros w (decChars n), ∃ d, d < 10 ∧ c = digitChar d := by
  intro c hc
  rcases List.mem_append.mp hc with h | h
  · have h0 := List.eq_of_mem_replicate h
    exact ⟨0, by norm_num, by rw [h0]; decide⟩
  · exact decChars_digits n c h

theorem pad_all_isDigit (w n : Nat) :
    (padZeros w (decChars n)).all Char.isDigit = true := by
  rw [List.all_eq_true]
  intro c hc
  obtain ⟨d, hd, rfl⟩ := pad_digitRep w n c hc
  exact digitChar_isDigit d hd

theorem pad_ne_sep (w n : Nat) (sep : Char) (hsep : sep.isDigit = false) :
    ∀ c ∈ padZeros w (decChars n), (c != sep) = true := by
  intro c hc
  obtain ⟨d, hd, rfl⟩ := pad_digitRep w n c hc
  rw [bne_iff_ne]
  intro hEq
  have := digitChar_isDigit d hd
  rw [hEq, hsep] at this
  exact Bool.false_ne_true this

theorem readNat_append_digit (xs : List Char) (d : Nat) (hd : d < 10) :
    readNat (xs ++ [digitChar d]) = readNat xs * 10 + d := by
  simp [readNat, List.foldl_append, digitChar_toNat d hd]

theorem readNat_decCharsAux (fuel : Nat) :
    ∀ n, n ≤ fuel → readNat (decCharsAux fuel n) = n := by
  induction fuel with
  | zero =>
    intro n hn
    have : n = 0 := Nat.le_zero.mp hn
    simp [this, decCharsAux, readNat]
  | succ fuel ih =>
    intro n hn
    cases n with
    | zero => simp [decCharsAux, readNat]
    | succ m =>
      rw [decCharsAux, readNat_append_digit _ _ (Nat.mod_lt _ (by norm_num))]
      have hlt : (m + 1) / 10 < m + 1 := Nat.div_lt_self (Nat.succ_pos m) (by norm_num)
      rw [ih ((m + 1) / 10) (by omega), Nat.mul_comm]
      exact Nat.div_add_mod (m + 1) 10

theorem readNat_replicate_zero (k : Nat) (ds : List Char) :
    readNat (List.replicate k '0' ++ ds) = readNat ds := by
  induction k with
  | zero => simp
  | succ k ih => simpa [readNat, List.replicate_succ] using ih

theorem readNat_decChars (n : Nat) : readNat (decChars n) = n := by
  unfold decChars
  by_cases h0 : n = 0
  · rw [if_pos h0, h0]
    decide
  · rw [if_neg h0]
    exact readNat_decCharsAux n n le_rfl

theorem readNat_pad (w n : Nat) : readNat (padZeros w (decChars n)) = n := by
  unfold padZeros
  rw [readNat_replicate_zero, readNat_decChars]

theorem readNat_twoDigits (n : Nat) : readNat (twoDigits n) = n :=
  readNat_pad 2 n

theorem readNat_fourDigits (n : Nat) : readNat (fourDigits n) = n :=
  readNat_pad 4 n

theorem decCharsAux_length_le (fuel : Nat) :
    ∀ n k, n < 10 ^ k → (decCharsAux fuel n).length ≤ k := by
  induction fuel with
  | zero =>
    intro n k _
    simp [decCharsAux]
  | succ fuel ih =>
    intro n k hk
    cases n with
    | zero => simp [decCharsAux]
    | succ m =>
      have hk0 : k ≠ 0 := by
        intro h0
        rw [h0, pow_zero] at hk
        omega
      obtain ⟨k2, rfl⟩ : ∃ k2, k = k2 + 1 := ⟨k - 1, by omega⟩
      rw [decCharsAux, List.length_append]
      have hdiv : (m + 1) / 10 < 10 ^ k2 := by
        rw [Nat.div_lt_iff_lt_mul (by norm_num : 0 < 10)]
        calc m + 1 < 10 ^ (k2 + 1) := hk
        _ = 10 ^ k2 * 10 := by rw [pow_succ]
      have := ih ((m + 1) / 10) k2 hdiv
      simp only [List.length_singleton]
      omega

theorem decChars_length_le (n k : Nat) (hk : 1 ≤ k) (h : n < 10 ^ k) :
    (decChars n).length ≤ k := by
  unfold decChars
  by_cases h0 : n = 0
  · rw [if_pos h0]
    simpa using hk
  · rw [if_neg h0]
    exact decCharsAux_length_le n n k h

theorem padZeros_length (w : Nat) (ds : List Char) (h : ds.length ≤ w) :
    (padZeros w ds).length = w := by
  simp only [padZeros, List.length_append, List.length_replicate]
  omega

theorem daysInMonth_le (y m : Nat) : daysInMonth y m ≤ 31 := by
  unfold daysInMonth
  split
  · split <;> norm_num
  · split <;> norm_num

theorem takeWhile_field (sep : Char) (A B : List Char)
    (hA : ∀ c ∈ A, (c != sep) = true) :
    (A ++ sep :: B).takeWhile (fun c => c != sep) = A := by
  induction A with
  | nil => simp [List.takeWhile_cons]
  | cons a A ih =>
    have ha := hA a (List.mem_cons_self _ _)
    simp only [List.cons_append, List.takeWhile_cons, ha, if_true]
    rw [ih fun c hc => hA c (List.mem_cons_of_mem _ hc)]

theorem dropWhile_field (sep : Char) (A B : List Char)
    (hA : ∀ c ∈ A, (c != sep) = true) :
    (A ++ sep :: B).dropWhile (fun c => c != sep) = sep :: B := by
  induction A with
  | nil => simp [List.dropWhile_cons]
  | cons a A ih =>
    have ha := hA a (List.mem_cons_self _ _)
    simp only [List.cons_append, List.dropWhile_cons, ha, if_true]
    exact ih fun c hc => hA c (List.mem_cons_of_mem _ hc)

theorem takeField_append (sep : Char) (A B : List Char)
    (hA : ∀ c ∈ A, (c != sep) = true) :
    takeField sep (A ++ sep :: B) = some (A, B) := by
  unfold takeField
  rw [dropWhile_field sep A B hA, takeWhile_field sep A B hA]

theorem parse_format_roundtrip (v : PyDatetime) (hv : v.Valid) (hm : v.microsecond = 0) :
    parseDtChars (formatDtChars v) = some v := by
  obtain ⟨y, mo, dy, hr, mi, se, ms⟩ := v
  change ms = 0 at hm
  subst hm
  obtain ⟨hy1, hy2, hmo1, hmo2, hd1, hd2, hh, hmi2, hs2, -⟩ := hv
  dsimp only at hy1 hy2 hmo1 hmo2 hd1 hd2 hh hmi2 hs2
  have hdy31 : dy ≤ 31 := le_trans hd2 (daysInMonth_le y mo)
  have hshape : formatDtChars ⟨y, mo, dy, hr, mi, se, 0⟩
      = fourDigits y ++ '-' :: (twoDigits mo ++ '-' :: (twoDigits dy ++ ' ' ::
          (twoDigits hr ++ ':' :: (twoDigits mi ++ ':' :: twoDigits se)))) := by
    simp [formatDtChars, List.append_assoc, List.cons_append]
  have t1 := takeField_append '-' (fourDigits y)
    (twoDigits mo ++ '-' :: (twoDigits dy ++ ' ' ::
      (twoDigits hr ++ ':' :: (twoDigits mi ++ ':' :: twoDigits se))))
    (pad_ne_sep 4 y '-' (by decide))
  have t2 := takeField_append '-' (twoDigits mo)
    (twoDigits dy ++ ' ' :: (twoDigits hr ++ ':' :: (twoDigits mi ++ ':' :: twoDigits se)))
    (pad_ne_sep 2 mo '-' (by decide))
  have t3 := takeField_append ' ' (twoDigits dy)
    (twoDigits hr ++ ':' :: (twoDigits mi ++ ':' :: twoDigits se))
    (pad_ne_sep 2 dy ' ' (by decide))
  have t4 := takeField_append ':' (twoDigits hr)
    (twoDigits mi ++ ':' :: twoDigits se)
    (pad_ne_sep 2 hr ':' (by decide))
  have t5 := takeField_append ':' (twoDigits mi) (twoDigits se)
    (pad_ne_sep 2 mi ':' (by decide))
  have hY4 : (fourDigits y).length = 4 :=
    padZeros_length 4 _ (decChars_length_le y 4 (by norm_num) (by
      rw [(by norm_num : (10 : Nat) ^ 4 = 10000)]
      omega))
  have hMo2 : (twoDigits mo).length = 2 :=
    padZeros_length 2 _ (decChars_length_le mo 2 (by norm_num) (by
      rw [(by norm_num : (10 : Nat) ^ 2 = 100)]
      omega))
  have hD2 : (twoDigits dy).length = 2 :=
    padZeros_length 2 _ (decChars_length_le dy 2 (by norm_num) (by
      rw [(by norm_num : (10 : Nat) ^ 2 = 100)]
      omega))
  have hH2 : (twoDigits hr).length = 2 :=
    padZeros_length 2 _ (decChars_length_le hr 2 (by norm_num) (by
      rw [(by norm_num : (10 : Nat) ^ 2 = 100)]
      omega))
  have hMi2 : (twoDigits mi).length = 2 :=
    padZeros_length 2 _ (decChars_length_le mi 2 (by norm_num) (by
      rw [(by norm_num : (10 : Nat) ^ 2 = 100)]
      omega))
  have hS2 : (twoDigits se).length = 2 :=
    padZeros_length 2 _ (decChars_length_le se 2 (by norm_num) (by
      rw [(by norm_num : (10 : Nat) ^ 2 = 100)]
      omega))
  have hcond : ((fourDigits y).all Char.isDigit = true ∧ (fourDigits y).length = 4)
      ∧ ((twoDigits mo).all Char.isDigit = true ∧ 1 ≤ (twoDigits mo).length
          ∧ (twoDigits mo).length ≤ 2)
      ∧ ((twoDigits dy).all Char.isDigit = true ∧ 1 ≤ (twoDigits dy).length
          ∧ (twoDigits dy).length ≤ 2)
      ∧ ((twoDigits hr).all Char.isDigit = true ∧ 1 ≤ (twoDigits hr).length
          ∧ (twoDigits hr).length ≤ 2)
      ∧ ((twoDigits mi).all Char.isDigit = true ∧ 1 ≤ (twoDigits mi).length
          ∧ (twoDigits mi).length ≤ 2)
      ∧ ((twoDigits se).all Char.isDigit = true ∧ 1 ≤ (twoDigits se).length
          ∧ (twoDigits se).length ≤ 2) :=
    ⟨⟨pad_all_isDigit 4 y, hY4⟩,
     ⟨pad_all_isDigit 2 mo, by rw [hMo2]; norm_num, by rw [hMo2]⟩,
     ⟨pad_all_isDigit 2 dy, by rw [hD2]; norm_num, by rw [hD2]⟩,
     ⟨pad_all_isDigit 2 hr, by rw [hH2]; norm_num, by rw [hH2]⟩,
     ⟨pad_all_isDigit 2 mi, by rw [hMi2]; norm_num, by rw [hMi2]⟩,
     ⟨pad_all_isDigit 2 se, by rw [hS2]; norm_num, by rw [hS2]⟩⟩
  have hvalid : PyDatetime.Valid ⟨y, mo, dy, hr, mi, se, 0⟩ := by
    refine ⟨hy1, hy2, hmo1, hmo2, hd1, hd2, hh, hmi2, hs2, by norm_num⟩
  rw [hshape]
  simp only [parseDtChars, t1, t2, t3, t4, t5, Option.bind_eq_bind, Option.some_bind]
  rw [if_pos hcond]
  simp only [readNat_fourDigits, readNat_twoDigits]
  rw [if_pos hvalid]

/-- Claim C7: for the Datetime field type, parse inverts format on every
timestamp value with zero sub second component (all datetime values satisfy
the constructor invariants, stated here as the Valid hypothesis); format of
the absent value returns the absent value; and parse of the absent value
returns the absent value. -/
theorem datetime_roundtrip :
    (∀ v : PyDatetime, v.Valid → v.microsecond = 0 →
       DatetimeField.parse (DatetimeField.format (some v)) = .ok (some v))
    ∧ DatetimeField.format Option.none = Option.none
    ∧ DatetimeField.parse Option.none = .ok Option.none := by
  refine ⟨fun v hv hm => ?_, rfl, rfl⟩
  have hr := parse_format_roundtrip v hv hm
  have hdata : (formatDt v).data = formatDtChars v := rfl
  have hnonnil : formatDtChars v ≠ [] := by
    simp [formatDtChars]
  have hne : ¬(formatDt v = "") := by
    intro hEq
    apply hnonnil
    rw [← hdata, hEq]
  simp only [DatetimeField.format, DatetimeField.parse]
  rw [if_neg hne, hdata]
  rw [hr]

/-- Witness for datetime_roundtrip: the concrete timestamp 2020-07-20
17:14:24 with zero microseconds parses back from its formatted text. -/
theorem datetime_roundtrip_witness :
    DatetimeField.parse (DatetimeField.format (some ⟨2020, 7, 20, 17, 14, 24, 0⟩))
      = .ok (some ⟨2020, 7, 20, 17, 14, 24, 0⟩) :=
  datetime_roundtrip.1 ⟨2020, 7, 20, 17, 14, 24, 0⟩ (by decide) rfl

end B2db
